import Mathlib

/-!
Verification development for the `email-endpoint` repository
(`api/contact.py` and `api/test.py`): a shallow embedding of the
contact-form HTTP handler, its captcha verifier and its email composer,
together with theorems settling the specification's claims.

Text is modelled as `List Char`.  Python library functions used by the
source (`str.strip`, `str.replace` with one-character patterns,
`html.escape`, `textwrap.indent`, `textwrap.dedent`, `int`,
`email.utils.formataddr`, the `re` match of the email pattern) are
translated here for the inputs the program feeds them (ASCII whitespace,
`\n` line endings); the handler itself only ever calls them in that range.
-/

set_option maxRecDepth 8000

namespace ContactApi

/-- The double-quote character (written numerically). -/
def quoteChar : Char := Char.ofNat 34

/-- The single-quote character (written numerically). -/
def aposChar : Char := Char.ofNat 39

/-- Python `str.isspace` on the ASCII range: the whitespace set that
`str.strip()` (with no argument) removes. -/
def pyWs (c : Char) : Bool :=
  c == ' ' || c == '\t' || c == '\n' || c == '\r' || c == '\x0b' || c == '\x0c'

/-- Drop a trailing run of Python whitespace. -/
def dropEndWs : List Char → List Char
  | [] => []
  | c :: rest =>
    match dropEndWs rest with
    | [] => if pyWs c then [] else [c]
    | r => c :: r

/-- Python `s.strip()`: remove leading and trailing whitespace. -/
def stripList (s : List Char) : List Char :=
  dropEndWs (s.dropWhile pyWs)

/-- Python `s.replace(p, repl)` for a one-character pattern `p`
(every `.replace` in `contact.py` has a one-character pattern). -/
def replaceChar (p : Char) (repl : List Char) : List Char → List Char
  | [] => []
  | c :: rest => (if c == p then repl else [c]) ++ replaceChar p repl rest

/-- `startsWith s pat`: `pat` begins the list `s`. -/
def startsWith : List Char → List Char → Bool
  | _, [] => true
  | [], _ :: _ => false
  | c :: cs, p :: ps => c == p && startsWith cs ps

/-- `containsSub pat s`: `pat` occurs contiguously inside `s`
(Python `pat in s` on strings). -/
def containsSub (pat : List Char) : List Char → Bool
  | [] => pat.isEmpty
  | c :: rest => startsWith (c :: rest) pat || containsSub pat rest

/-- Split on `\n` (the only line terminator the handler's strings use);
like Python `text.split("\n")`, never empty. -/
def splitNl : List Char → List (List Char)
  | [] => [[]]
  | c :: rest =>
    match splitNl rest with
    | [] => [[]]
    | l :: ls => if c == '\n' then [] :: l :: ls else (c :: l) :: ls

/-- Join lines with `\n`, the inverse of `splitNl`. -/
def joinNl : List (List Char) → List Char
  | [] => []
  | [l] => l
  | l :: ls => l ++ '\n' :: joinNl ls

/-- A space or a tab: the indentation characters `textwrap.dedent`
works with (`[ \t]` in its regexes). -/
def isIndentChar (c : Char) : Bool := c == ' ' || c == '\t'

/-- A line consisting only of spaces/tabs (nonempty), which
`textwrap.dedent` normalizes to an empty line. -/
def wsOnly (l : List Char) : Bool := !l.isEmpty && l.all isIndentChar

/-- The leading space/tab run of a line. -/
def leadWS (l : List Char) : List Char := l.takeWhile isIndentChar

/-- Longest common prefix of two indents, as `textwrap.dedent`'s margin
folding computes it. -/
def commonPre : List Char → List Char → List Char
  | a :: as_, b :: bs => if a == b then a :: commonPre as_ bs else []
  | _, _ => []

/-- The margin `textwrap.dedent` removes: the longest common leading
space/tab prefix of the non-blank lines. -/
def marginOf (lines : List (List Char)) : List Char :=
  match (lines.filter (fun l => !l.isEmpty)).map leadWS with
  | [] => []
  | i :: is_ => is_.foldl commonPre i

/-- Python `textwrap.dedent`: blank out whitespace-only lines, compute the
common margin of the remaining lines, and strip it from every line that
starts with it. -/
def pyDedent (t : List Char) : List Char :=
  let lines := (splitNl t).map (fun l => if wsOnly l then [] else l)
  let m := marginOf lines
  joinNl (lines.map (fun l => if startsWith l m then l.drop m.length else l))

/-- Split keeping the `\n` terminators, like Python `splitlines(True)`
restricted to `\n` endings (the only terminator present here). -/
def linesKeep : List Char → List (List Char)
  | [] => []
  | '\n' :: rest => ['\n'] :: linesKeep rest
  | c :: rest =>
    match linesKeep rest with
    | [] => [[c]]
    | l :: ls => (c :: l) :: ls

/-- Python `textwrap.indent(t, pre)` with the default predicate: prefix
every line whose `strip()` is non-empty. -/
def pyIndent (pre t : List Char) : List Char :=
  (linesKeep t).foldr
    (fun l acc => (if (stripList l).isEmpty then l else pre ++ l) ++ acc) []

/-- Python `html.escape(s)` with the default `quote=True`: replace `&`,
then `<`, `>`, then the double and single quote, in that order. -/
def htmlEscape (s : List Char) : List Char :=
  replaceChar aposChar "&#x27;".toList
    (replaceChar quoteChar "&quot;".toList
      (replaceChar '>' "&gt;".toList
        (replaceChar '<' "&lt;".toList
          (replaceChar '&' "&amp;".toList s))))

/-- `safe_message` from `send_email`:
`html.escape(message).replace("\n", "<br>")`. -/
def safe_message (message : List Char) : List Char :=
  replaceChar '\n' "<br>".toList (htmlEscape message)

/-- Python `int(s)` on a string: strip whitespace, optional sign, then
decimal digits with single underscores allowed between digits;
`none` models the `ValueError` raised otherwise. -/
def pyIntDigitsTail : List Char → Bool
  | [] => true
  | '_' :: rest =>
    match rest with
    | c :: r2 => c.isDigit && pyIntDigitsTail r2
    | [] => false
  | c :: rest => c.isDigit && pyIntDigitsTail rest

/-- Valid digit run for `int()`: nonempty, digits with embedded single
underscores. -/
def pyIntDigits : List Char → Bool
  | [] => false
  | c :: rest => c.isDigit && pyIntDigitsTail rest

/-- Numeric value of a digit run (underscores skipped). -/
def digitsVal (l : List Char) : Nat :=
  l.foldl (fun n c => if c == '_' then n else n * 10 + (c.toNat - 48)) 0

/-- Python `int(s)`; `none` is a `ValueError`. -/
def pyInt (s : List Char) : Option Int :=
  match stripList s with
  | [] => none
  | c :: rest =>
    if c == '+' then
      if pyIntDigits rest then some (digitsVal rest) else none
    else if c == '-' then
      if pyIntDigits rest then some (-(digitsVal rest : Int)) else none
    else
      if pyIntDigits (c :: rest) then some (digitsVal (c :: rest)) else none

/-- Character class `[a-zA-Z0-9_.+-]` (the local part of `EMAIL_REGEX`). -/
def isLocalChar (c : Char) : Bool :=
  c.isAlpha || c.isDigit || c == '_' || c == '.' || c == '+' || c == '-'

/-- Character class `[a-zA-Z0-9-]` (the domain label before the dot). -/
def isLabelChar (c : Char) : Bool := c.isAlpha || c.isDigit || c == '-'

/-- Character class `[a-zA-Z0-9-.]` (the domain tail after the dot). -/
def isTailChar (c : Char) : Bool :=
  c.isAlpha || c.isDigit || c == '-' || c == '.'

/-- `re.match(EMAIL_REGEX, s)` as a full match, for
`EMAIL_REGEX = ^[a-zA-Z0-9_.+-]+@[a-zA-Z0-9-]+\.[a-zA-Z0-9-.]+$`.
Since no character class contains `@`, the literal `@` must be the first
`@` of `s`, and since the label class has no dot, the literal dot must be
the first dot after it; the handler only matches stripped strings, so the
`$`-before-trailing-newline case cannot arise. -/
def emailMatch (s : List Char) : Bool :=
  let lp := s.takeWhile (fun c => c != '@')
  match s.drop lp.length with
  | '@' :: dom =>
    let lab := dom.takeWhile (fun c => c != '.')
    (match dom.drop lab.length with
     | '.' :: tl =>
       !lp.isEmpty && lp.all isLocalChar && !lab.isEmpty &&
         lab.all isLabelChar && !tl.isEmpty && tl.all isTailChar
     | _ => false)
  | _ => false

/-- A parsed JSON value, the result of a successful `json.loads`
(object keys are unique, as in a Python dict). -/
inductive JVal where
  | jnull
  | jbool (b : Bool)
  | jnum (n : Int)
  | jstr (s : String)
  | jarr (elems : List JVal)
  | jobj (fields : List (String × JVal))

/-- Python truthiness of a JSON value (`bool(v)`). -/
def JVal.truthy : JVal → Bool
  | .jnull => false
  | .jbool b => b
  | .jnum n => n != 0
  | .jstr s => !s.isEmpty
  | .jarr xs => !xs.isEmpty
  | .jobj fs => !fs.isEmpty

/-- Dict lookup (keys unique, so first match). -/
def lookupStr : List (String × JVal) → String → Option JVal
  | [], _ => none
  | (k, v) :: rest, key => if k == key then some v else lookupStr rest key

/-- Python `data.get(key)`: `none` result models Python `None`;
`.error` models the `AttributeError` raised when `data` is not a dict. -/
def dictGet : JVal → String → Except Unit (Option JVal)
  | .jobj fs, key => .ok (lookupStr fs key)
  | _, _ => .error ()

/-- Truthiness of a `data.get` result (`None` is falsy). -/
def truthyOpt : Option JVal → Bool
  | none => false
  | some v => v.truthy

/-- Python `data.get(key, "").strip()`: the default is the empty string;
a non-string value raises `AttributeError` at `.strip()` (`.error`). -/
def getStrip (data : JVal) (key : String) : Except Unit (List Char) :=
  match data with
  | .jobj fs =>
    match lookupStr fs key with
    | none => .ok (stripList "".toList)
    | some (.jstr s) => .ok (stripList s.toList)
    | some _ => .error ()
  | _ => .error ()

/-- The three `data.get(...)."".strip()` lines of `do_POST`, in source
order (name, then email, then message); the first non-string raises. -/
def fields3 (data : JVal) : Except Unit (List Char × List Char × List Char) := do
  let n ← getStrip data "name"
  let e ← getStrip data "email"
  let m ← getStrip data "message"
  return (n, e, m)

/-- Outcome of the single outbound `requests.post` to the captcha
service: a `requests.RequestException` (connection error, timeout, or
`raise_for_status`), a `ValueError` from `response.json()`, or a parsed
JSON body. -/
inductive CaptchaOutcome where
  | netError
  | badJson
  | ok (result : JVal)

/-- The environment of one invocation: configuration read from
`os.environ`, the behaviour of the two outbound services, and the
timestamp `datetime.now` produces. -/
structure Env where
  recaptchaSecret : Option String
  captchaHTTP : CaptchaOutcome
  emailFrom : Option String
  emailTo : Option String
  emailPassword : Option String
  smtpOk : Bool
  timestamp : List Char

/-- Result of `verify_captcha`: a return value, or an uncaught
exception (`RuntimeError` for missing config, or the `AttributeError`
when the service's JSON is not an object — neither is in the
`except (RequestException, ValueError)` clause). -/
inductive VerifyOut where
  | raised
  | ret (b : Bool)

/-- `handler.verify_captcha`, paired with the number of outbound calls
made (0 or 1; the token argument only flows into the request body, which
the model folds into `Env.captchaHTTP`). -/
def verify_captcha (env : Env) : VerifyOut × Nat :=
  match env.recaptchaSecret with
  | none => (.raised, 0)
  | some s =>
    if s.isEmpty then (.raised, 0)
    else
      match env.captchaHTTP with
      | .netError => (.ret false, 1)
      | .badJson => (.ret false, 1)
      | .ok result =>
        match result with
        | .jobj fs =>
          if truthyOpt (lookupStr fs "success") then (.ret true, 1)
          else (.ret false, 1)
        | _ => (.raised, 1)

/-- The composed outgoing message (`EmailMessage` fields set by
`send_email`). -/
structure Email where
  subject : List Char
  fromAddr : List Char
  toAddr : List Char
  replyTo : List Char
  plainBody : List Char
  htmlBody : List Char

/-- The specials class of `email.utils.formataddr`
(regex `[][\()<>@,:;".]`). -/
def formataddrSpecials : List Char :=
  ['[', ']', '\\', '(', ')', '<', '>', '@', ',', ':', ';', quoteChar, '.']

/-- `formataddr`'s backslash-escaping of `\` and `"` in the display
name. -/
def formataddrEscape (name : List Char) : List Char :=
  name.foldr
    (fun c acc => if c == '\\' || c == quoteChar then '\\' :: c :: acc else c :: acc) []

/-- `email.utils.formataddr((name, addr))` on an ASCII name: empty name
gives the bare address; a name containing a special is quoted. -/
def formataddr (name addr : List Char) : List Char :=
  if name.isEmpty then addr
  else
    let q := if name.any (fun c => formataddrSpecials.contains c) then [quoteChar] else []
    q ++ formataddrEscape name ++ q ++ ' ' :: '<' :: (addr ++ ['>'])

/-- First line of the `html_content` f-string template. -/
def htmlHead : List Char := "        <html>".toList

/-- Template text from `<body>` up to the `Received at:` slot. -/
def htmlMidA : List Char :=
  ("          <body>\n            <div style=\"font-family: Arial, sans-serif; max-width: 600px; margin: 0 auto;\">\n              <h2 style=\"color: #2563eb;\">🚀 New Message From Portfolio Site</h2>\n              <div style=\"background-color: #f3f4f6; padding: 16px; border-radius: 8px; margin-bottom: 24px;\">\n                <p><strong>Received at:</strong> ").toList

/-- Template text between the timestamp and the escaped name. -/
def htmlMidB : List Char :=
  ("</p>\n                <h3 style=\"color: #4b5563; margin-top: 20px;\">Contact Details</h3>\n                <ul>\n                  <li><strong>Name:</strong> ").toList

/-- Template text between the name and the `mailto:` email slot. -/
def htmlMidC : List Char :=
  ("</li>\n                  <li><strong>Email:</strong> <a href=\"mailto:").toList

/-- Template text between the two email slots. -/
def htmlMidD : List Char := ("\">").toList

/-- Template text from `</a>` up to the end of the line that opens the
message `<div>`. -/
def htmlMidE : List Char :=
  ("</a></li>\n                </ul>\n                <h3 style=\"color: #4b5563; margin-top: 20px;\">📝 Message</h3>\n                <div style=\"white-space: pre-wrap; background: white; padding: 12px; border-radius: 4px;\">").toList

/-- The 18 spaces that indent the `safe_message` line in the template. -/
def htmlIndent18 : List Char := List.replicate 18 ' '

/-- Template text after the `safe_message` line (through the final
8-space line before the closing triple quote). -/
def htmlTail : List Char :=
  ("                </div>\n              </div>\n              <div style=\"font-size: 12px; color: #6b7280; text-align: center; padding-top: 16px; border-top: 1px solid #e5e7eb;\">\n                <p>🔒 This message was sent securely via your portfolio contact form</p>\n                <p>🤖 Automated Notification - Do not reply directly to this email</p>\n              </div>\n            </div>\n          </body>\n        </html>\n        ").toList

/-- The `html_content` f-string of `send_email`, before
`textwrap.dedent`: the literal template with the timestamp, escaped
name, escaped email (twice) and `safe_message` interpolated. -/
def htmlRaw (ts escName escEmail safeMsg : List Char) : List Char :=
  htmlHead ++
    '\n' :: (htmlMidA ++ ts ++ htmlMidB ++ escName ++ htmlMidC ++ escEmail ++
      htmlMidD ++ escEmail ++ htmlMidE) ++
    '\n' :: (htmlIndent18 ++ safeMsg) ++
    '\n' :: htmlTail

/-- Template text of the `plain_text` f-string up to the timestamp. -/
def plainA : List Char :=
  ("        🚀 New Message From Your Portfolio Site\n\n        ⏰ Received at: ").toList

/-- Plain-text template between the timestamp and the name. -/
def plainB : List Char :=
  ("\n\n        👤 Contact Details:\n          • Name: ").toList

/-- Plain-text template between the name and the email. -/
def plainC : List Char := ("\n          • Email: ").toList

/-- Plain-text template between the email and the indented message. -/
def plainD : List Char := ("\n\n        📝 Message:\n        ").toList

/-- Plain-text template after the message. -/
def plainE : List Char :=
  ("\n\n        ---\n        🤖 Automated Notification - Do not reply directly to this email.\n        ").toList

/-- The `plain_text` f-string of `send_email`, before `textwrap.dedent`,
with `textwrap.indent(message.strip(), "    ")` interpolated. -/
def plainRaw (ts name email message : List Char) : List Char :=
  plainA ++ ts ++ plainB ++ name ++ plainC ++ email ++ plainD ++
    pyIndent "    ".toList (stripList message) ++ plainE

/-- The `EmailMessage` that `send_email` builds: subject, addresses,
`Reply-To`, dedented plain-text body and dedented HTML body. -/
def composeEmail (ts fromA toA name email message : List Char) : Email :=
  { subject := "New Portfolio Message: ".toList ++ name
    fromAddr := fromA
    toAddr := toA
    replyTo := formataddr name email
    plainBody := pyDedent (plainRaw ts name email message)
    htmlBody := pyDedent (htmlRaw ts (htmlEscape name) (htmlEscape email) (safe_message message)) }

/-- An environment variable that `if not os.environ.get(var)` treats as
missing: absent or empty. -/
def falsyEnv : Option String → Bool
  | none => true
  | some s => s.isEmpty

/-- Result of `handler.send_email`: a `RuntimeError` before composing
(incomplete email configuration), a composed message whose SMTP handoff
failed (any exception from the SMTP block, including the `int()` of the
port/timeout overrides), or a composed message accepted by the
transport. -/
inductive SendOut where
  | configError
  | smtpFail (m : Email)
  | sent (m : Email)

/-- `handler.send_email`. -/
def send_email (env : Env) (name email message : List Char) : SendOut :=
  if falsyEnv env.emailFrom || falsyEnv env.emailTo || falsyEnv env.emailPassword then
    .configError
  else
    let m := composeEmail env.timestamp (env.emailFrom.getD "").toList
      (env.emailTo.getD "").toList name email message
    if env.smtpOk then .sent m else .smtpFail m

/-- `MAX_CONTENT_LENGTH` (10KB). -/
def MAX_CONTENT_LENGTH : Int := 10240

/-- `ALLOWED_ORIGINS`. -/
def ALLOWED_ORIGINS : List String :=
  ["https://www.satyadahal.com.np", "https://satyadahal.com.np"]

/-- `ALLOWED_ENDPOINT`. -/
def ALLOWED_ENDPOINT : String := "/api/contact"

/-- `is_origin_allowed`: a missing or empty origin is rejected, otherwise
membership in the allow-list. -/
def is_origin_allowed : Option String → Bool
  | none => false
  | some o => if o.isEmpty then false else ALLOWED_ORIGINS.contains o

/-- One incoming POST request: path, `Origin` header, raw
`Content-Length` header, and the outcome of `json.loads` on the bytes
read from the body (`none` is a `JSONDecodeError`). -/
structure Request where
  path : String
  origin : Option String
  contentLength : Option String
  bodyJson : Option JVal

/-- `int(self.headers.get("Content-Length", 0))`: the default `0` when
the header is absent, otherwise Python `int` on the header string. -/
def contentLengthVal (r : Request) : Option Int :=
  match r.contentLength with
  | none => some 0
  | some v => pyInt v.toList

/-- The validation checks of `do_POST`, in source order. -/
inductive Check where
  | origin | size | parse | token | captcha | fields | email
deriving DecidableEq

/-- Observable outcome of one `do_POST` invocation: response status and
body, the emails composed, the emails handed to the SMTP transport, the
number of outbound captcha-service calls, and the checks reached, in
order. -/
structure Outcome where
  status : Nat
  body : String
  composed : List Email
  sent : List Email
  captchaCalls : Nat
  steps : List Check

/-- `handler.do_POST`.  The outer `try` maps any uncaught exception
(bad `int()` on `Content-Length`, `AttributeError` on a non-dict JSON
body or a non-string field, `RuntimeError` from `verify_captcha`) to
500 `"Internal server error"`; the inner `try` around `send_email` maps
its failures to 500 `"Failed to send message"`. -/
def do_POST (env : Env) (r : Request) : Outcome :=
  if r.path != ALLOWED_ENDPOINT then
    ⟨404, "Not Found", [], [], 0, []⟩
  else if !is_origin_allowed r.origin then
    ⟨403, "CORS policy violation", [], [], 0, [.origin]⟩
  else
    match contentLengthVal r with
    | none => ⟨500, "Internal server error", [], [], 0, [.origin, .size]⟩
    | some n =>
      if n > MAX_CONTENT_LENGTH then
        ⟨413, "Payload too large", [], [], 0, [.origin, .size]⟩
      else
        match r.bodyJson with
        | none => ⟨400, "Invalid JSON format", [], [], 0, [.origin, .size, .parse]⟩
        | some data =>
          match dictGet data "g-recaptcha-response" with
          | .error _ =>
            ⟨500, "Internal server error", [], [], 0, [.origin, .size, .parse, .token]⟩
          | .ok tok =>
            if !truthyOpt tok then
              ⟨400, "Missing reCAPTCHA token", [], [], 0, [.origin, .size, .parse, .token]⟩
            else
              match verify_captcha env with
              | (.raised, k) =>
                ⟨500, "Internal server error", [], [], k,
                  [.origin, .size, .parse, .token, .captcha]⟩
              | (.ret false, k) =>
                ⟨400, "reCAPTCHA verification failed", [], [], k,
                  [.origin, .size, .parse, .token, .captcha]⟩
              | (.ret true, k) =>
                match fields3 data with
                | .error _ =>
                  ⟨500, "Internal server error", [], [], k,
                    [.origin, .size, .parse, .token, .captcha, .fields]⟩
                | .ok (name, email, message) =>
                  if name.isEmpty || email.isEmpty || message.isEmpty then
                    ⟨400, "All fields are required", [], [], k,
                      [.origin, .size, .parse, .token, .captcha, .fields]⟩
                  else if !emailMatch email then
                    ⟨400, "Invalid email format", [], [], k,
                      [.origin, .size, .parse, .token, .captcha, .fields, .email]⟩
                  else
                    match send_email env name email message with
                    | .sent m =>
                      ⟨200, "Message sent successfully!", [m], [m], k,
                        [.origin, .size, .parse, .token, .captcha, .fields, .email]⟩
                    | .smtpFail m =>
                      ⟨500, "Failed to send message", [m], [], k,
                        [.origin, .size, .parse, .token, .captcha, .fields, .email]⟩
                    | .configError =>
                      ⟨500, "Failed to send message", [], [], k,
                        [.origin, .size, .parse, .token, .captcha, .fields, .email]⟩

/-- `api/test.py`'s `handler.do_GET`: the liveness endpoint. -/
def test_do_GET : Nat × String := (200, "<h1>Test endpoint is working!</h1>")

/-- Modelled from the spec's words for comparison (C3): the message with
only the characters `<`, `>`, `&` escaped, as `&lt;`, `&gt;`, `&amp;`,
and nothing else altered. -/
def specOnlyEscape (s : List Char) : List Char :=
  replaceChar '>' "&gt;".toList
    (replaceChar '<' "&lt;".toList
      (replaceChar '&' "&amp;".toList s))

/-- Whether a `data.get` result holds a value whose `.strip()` raises:
present and not a string. -/
def nonStrVal : Option JVal → Bool
  | some (.jstr _) => false
  | some _ => true
  | none => false

/-- Which checks of `do_POST` pass, per check, for a given environment
and request (used to state the check-order claim). -/
def passesCheck (env : Env) (r : Request) : Check → Bool
  | .origin => is_origin_allowed r.origin
  | .size =>
    (match contentLengthVal r with
     | none => false
     | some n => decide (n ≤ MAX_CONTENT_LENGTH))
  | .parse => r.bodyJson.isSome
  | .token =>
    (match r.bodyJson with
     | some d =>
       (match dictGet d "g-recaptcha-response" with
        | .ok v => truthyOpt v
        | .error _ => false)
     | none => false)
  | .captcha =>
    (match (verify_captcha env).1 with
     | .ret true => true
     | _ => false)
  | .fields =>
    (match r.bodyJson with
     | some d =>
       (match fields3 d with
        | .ok (n, e, m) => !n.isEmpty && !e.isEmpty && !m.isEmpty
        | .error _ => false)
     | none => false)
  | .email =>
    (match r.bodyJson with
     | some d =>
       (match fields3 d with
        | .ok (_, e, _) => emailMatch e
        | .error _ => false)
     | none => false)

/-- The documented check order: origin, size, JSON parse, captcha-token
presence, captcha verification, field presence, email pattern. -/
def checkOrder : List Check :=
  [.origin, .size, .parse, .token, .captcha, .fields, .email]

/-- The checks a short-circuiting validator performs: every passing check
in order, up to and including the first failing one. -/
def firstFailTrace (p : Check → Bool) : List Check → List Check
  | [] => []
  | c :: cs => if p c then c :: firstFailTrace p cs else [c]

/-- The spec's predicted trace for one request. -/
def specSteps (env : Env) (r : Request) : List Check :=
  firstFailTrace (passesCheck env r) checkOrder

/-- A fully valid request body, as in the spec's worked example. -/
def jsonOk : JVal :=
  .jobj [("name", .jstr "Jo"), ("email", .jstr "jo@example.com"),
    ("message", .jstr "Hi"), ("g-recaptcha-response", .jstr "tok")]

/-- A healthy environment: secret set, captcha service answering
`{"success": true}`, full email configuration, working SMTP. -/
def envOk : Env :=
  { recaptchaSecret := some "sec"
    captchaHTTP := .ok (.jobj [("success", .jbool true)])
    emailFrom := some "from@x.co"
    emailTo := some "to@x.co"
    emailPassword := some "pw"
    smtpOk := true
    timestamp := "2026-01-01 00:00:00 UTC".toList }

/-- A fully valid request from an allowed origin. -/
def reqOk : Request :=
  { path := "/api/contact"
    origin := some "https://satyadahal.com.np"
    contentLength := some "92"
    bodyJson := some jsonOk }

/-- A concrete message containing a single quote: `*`, `'`, `*`. -/
def cxMsg : List Char := ['*', aposChar, '*']

/-- Concrete timestamp for the composed-email examples. -/
def cxTs : List Char := "2026-01-01 00:00:00 UTC".toList

/-- Concrete sender address. -/
def cxFrom : List Char := "from@x.co".toList

/-- Concrete recipient address. -/
def cxTo : List Char := "to@x.co".toList

/-- Concrete submitted name. -/
def cxName : List Char := "Jo".toList

/-- Concrete submitted email. -/
def cxEmail : List Char := "jo@example.com".toList

/-- A request whose declared `Content-Length` exceeds the 10KB cap. -/
def reqBig : Request :=
  { path := "/api/contact"
    origin := some "https://satyadahal.com.np"
    contentLength := some "20000"
    bodyJson := some jsonOk }

/-- A request whose `Content-Length` header is not parseable as an
integer. -/
def reqBadLen : Request :=
  { path := "/api/contact"
    origin := some "https://satyadahal.com.np"
    contentLength := some "abc"
    bodyJson := some jsonOk }

/-- A body with no `g-recaptcha-response` key. -/
def jsonNoTok : JVal :=
  .jobj [("name", .jstr "Jo"), ("email", .jstr "jo@example.com"),
    ("message", .jstr "Hi")]

/-- A request lacking the captcha token. -/
def reqNoTok : Request :=
  { path := "/api/contact"
    origin := some "https://satyadahal.com.np"
    contentLength := some "70"
    bodyJson := some jsonNoTok }

/-- A body whose email does not match the validation pattern. -/
def jsonBadEmail : JVal :=
  .jobj [("name", .jstr "Jo"), ("email", .jstr "jo@example"),
    ("message", .jstr "Hi"), ("g-recaptcha-response", .jstr "tok")]

/-- A request with a non-matching email. -/
def reqBadEmail : Request :=
  { path := "/api/contact"
    origin := some "https://satyadahal.com.np"
    contentLength := some "88"
    bodyJson := some jsonBadEmail }

/-- A body binding `name` to a number instead of a string. -/
def jsonNumName : JVal :=
  .jobj [("name", .jnum 5), ("email", .jstr "jo@example.com"),
    ("message", .jstr "Hi"), ("g-recaptcha-response", .jstr "tok")]

/-- A request whose `name` field is a non-string. -/
def reqNumName : Request :=
  { path := "/api/contact"
    origin := some "https://satyadahal.com.np"
    contentLength := some "80"
    bodyJson := some jsonNumName }

/-- `envOk` with the captcha secret unset. -/
def envNoSecret : Env :=
  { envOk with recaptchaSecret := none }

/-- `envOk` with the captcha-service call failing with a network
error. -/
def envNetFail : Env :=
  { envOk with captchaHTTP := .netError }

/-! Helper lemmas about the text-processing primitives. -/

theorem replaceChar_not_mem_self (c : Char) (repl s : List Char)
    (h : c ∉ repl) : c ∉ replaceChar c repl s := by
  induction s with
  | nil => simp [replaceChar]
  | cons a rest ih =>
    simp only [replaceChar]
    intro hmem
    rcases List.mem_append.mp hmem with h1 | h2
    · by_cases hac : a == c
      · rw [if_pos hac] at h1
        exact h h1
      · rw [if_neg hac] at h1
        simp only [List.mem_singleton] at h1
        subst h1
        simp at hac
    · exact ih h2

theorem replaceChar_not_mem (c p : Char) (repl s : List Char)
    (hr : c ∉ repl) (hs : c ∉ s) : c ∉ replaceChar p repl s := by
  induction s with
  | nil => simp [replaceChar]
  | cons a rest ih =>
    simp only [replaceChar]
    intro hmem
    have hca : c ≠ a := fun e => hs (e ▸ List.mem_cons_self a rest)
    have hrest : c ∉ rest := fun e => hs (List.mem_cons_of_mem a e)
    rcases List.mem_append.mp hmem with h1 | h2
    · by_cases hap : a == p
      · rw [if_pos hap] at h1
        exact hr h1
      · rw [if_neg hap] at h1
        simp only [List.mem_singleton] at h1
        exact hca h1
    · exact ih hrest h2

theorem replaceChar_all_indent (p : Char) (repl s : List Char) (d : Char)
    (hd : d ∈ repl) (hdi : isIndentChar d = false)
    (h : (replaceChar p repl s).all isIndentChar = true) :
    s.all isIndentChar = true := by
  induction s with
  | nil => rfl
  | cons a rest ih =>
    simp only [replaceChar, List.all_append] at h
    have h1 := (Bool.and_eq_true _ _).mp h
    by_cases hap : a == p
    · rw [if_pos hap] at h1
      exfalso
      have := (List.all_eq_true.mp h1.1) d hd
      rw [hdi] at this
      exact Bool.false_ne_true this
    · rw [if_neg hap] at h1
      have ha : isIndentChar a = true := by
        have := h1.1
        simpa using this
      simp only [List.all_cons, ha, Bool.true_and]
      exact ih h1.2

theorem dropWhile_head_false (p : Char → Bool) (l : List Char) (c : Char)
    (r : List Char) (h : l.dropWhile p = c :: r) : p c = false := by
  induction l with
  | nil => simp [List.dropWhile] at h
  | cons a rest ih =>
    rw [List.dropWhile_cons] at h
    by_cases hp : p a = true
    · rw [if_pos hp] at h
      exact ih h
    · rw [if_neg hp] at h
      have : a = c := (List.cons.injEq _ _ _ _ ▸ h).1
      subst this
      exact Bool.not_eq_true _ ▸ hp

theorem dropEndWs_head (l : List Char) (c : Char) (r : List Char)
    (h : dropEndWs l = c :: r) : ∃ r0, l = c :: r0 := by
  induction l generalizing c r with
  | nil => simp [dropEndWs] at h
  | cons a rest ih =>
    simp only [dropEndWs] at h
    cases hrec : dropEndWs rest with
    | nil =>
      rw [hrec] at h
      by_cases hw : pyWs a = true
      · rw [if_pos hw] at h
        exact absurd h (by simp)
      · rw [if_neg hw] at h
        have : a = c := (List.cons.injEq _ _ _ _ ▸ h).1
        exact ⟨rest, by rw [this]⟩
    | cons x xs =>
      rw [hrec] at h
      have : a = c := (List.cons.injEq _ _ _ _ ▸ h).1
      exact ⟨rest, by rw [this]⟩

theorem stripList_head (s : List Char) (c : Char) (r : List Char)
    (h : stripList s = c :: r) : pyWs c = false := by
  simp only [stripList] at h
  obtain ⟨r0, hr0⟩ := dropEndWs_head _ _ _ h
  exact dropWhile_head_false pyWs s c r0 hr0

theorem splitNl_ne_nil (t : List Char) : splitNl t ≠ [] := by
  cases t with
  | nil => simp [splitNl]
  | cons c rest =>
    simp only [splitNl]
    cases h : splitNl rest with
    | nil => simp
    | cons l ls =>
      by_cases hc : c == '\n' <;> simp [hc]

theorem splitNl_line (l t : List Char) (h : '\n' ∉ l) :
    splitNl (l ++ '\n' :: t) = l :: splitNl t := by
  induction l with
  | nil =>
    simp only [List.nil_append, splitNl]
    cases hs : splitNl t with
    | nil => exact absurd hs (splitNl_ne_nil t)
    | cons x xs => simp
  | cons c rest ih =>
    have hc : c ≠ '\n' := fun e => h (e ▸ List.mem_cons_self c rest)
    have hrest : '\n' ∉ rest := fun e => h (List.mem_cons_of_mem c e)
    simp only [List.cons_append, splitNl, List.append_eq]
    rw [ih hrest]
    simp [hc]

theorem splitNl_shift (x y : List Char) :
    ∃ pre, pre ≠ [] ∧ splitNl (x ++ '\n' :: y) = pre ++ splitNl y := by
  induction x with
  | nil =>
    refine ⟨[[]], by simp, ?_⟩
    simp only [List.nil_append, splitNl]
    cases hs : splitNl y with
    | nil => exact absurd hs (splitNl_ne_nil y)
    | cons l ls => simp
  | cons c rest ih =>
    obtain ⟨pre, hne, hpre⟩ := ih
    cases pre with
    | nil => exact absurd rfl hne
    | cons p ps =>
      by_cases hc : c == '\n'
      · refine ⟨[] :: p :: ps, by simp, ?_⟩
        simp only [List.cons_append, splitNl, List.append_eq]
        rw [hpre]
        simp [hc]
      · refine ⟨(c :: p) :: ps, by simp, ?_⟩
        simp only [List.cons_append, splitNl, List.append_eq]
        rw [hpre]
        simp [hc]

theorem commonPre_pre (a b : List Char) : ∃ t, commonPre a b ++ t = a := by
  induction a generalizing b with
  | nil => exact ⟨[], by cases b <;> simp [commonPre]⟩
  | cons x xs ih =>
    cases b with
    | nil => exact ⟨x :: xs, by simp [commonPre]⟩
    | cons y ys =>
      by_cases hxy : x == y
      · obtain ⟨t, ht⟩ := ih ys
        exact ⟨t, by simp [commonPre, hxy, ht]⟩
      · exact ⟨x :: xs, by simp [commonPre, hxy]⟩

theorem foldl_commonPre_pre (l : List (List Char)) (a : List Char) :
    ∃ t, l.foldl commonPre a ++ t = a := by
  induction l generalizing a with
  | nil => exact ⟨[], by simp⟩
  | cons b l ih =>
    obtain ⟨t1, ht1⟩ := ih (commonPre a b)
    obtain ⟨t2, ht2⟩ := commonPre_pre a b
    exact ⟨t1 ++ t2, by simp only [List.foldl_cons, ← List.append_assoc, ht1, ht2]⟩

theorem joinNl_mem (ls : List (List Char)) (l : List Char) (h : l ∈ ls) :
    ∃ p q, joinNl ls = p ++ l ++ q := by
  induction ls with
  | nil => simp at h
  | cons a ls ih =>
    rcases List.mem_cons.mp h with rfl | hmem
    · cases ls with
      | nil => exact ⟨[], [], by simp [joinNl]⟩
      | cons b ls2 => exact ⟨[], '\n' :: joinNl (b :: ls2), by simp [joinNl]⟩
    · obtain ⟨p, q, hpq⟩ := ih hmem
      cases ls with
      | nil => simp at hmem
      | cons b ls2 =>
        refine ⟨a ++ '\n' :: p, q, ?_⟩
        simp only [joinNl, hpq]
        simp

theorem startsWith_append_self (a b : List Char) : startsWith (a ++ b) a = true := by
  induction a with
  | nil => cases b <;> rfl
  | cons c cs ih => simp [startsWith, ih]

theorem startsWith_spaces (m : List Char) (k : Nat) (rest : List Char)
    (hm : ∀ c ∈ m, c = ' ') (hk : m.length ≤ k) :
    startsWith (List.replicate k ' ' ++ rest) m = true := by
  induction m generalizing k with
  | nil =>
    cases k with
    | zero => cases rest <;> rfl
    | succ k2 => simp [List.replicate_succ, startsWith]
  | cons c m2 ih =>
    cases k with
    | zero => simp at hk
    | succ k2 =>
      have hc : c = ' ' := hm c (List.mem_cons_self c m2)
      have hm2 : ∀ x ∈ m2, x = ' ' := fun x hx => hm x (List.mem_cons_of_mem c hx)
      have hk2 : m2.length ≤ k2 := by simpa using hk
      simp only [List.replicate_succ, List.cons_append, startsWith, hc]
      simp [ih k2 hm2 hk2]

theorem drop_replicate_append (k n : Nat) (c : Char) (rest : List Char)
    (h : k ≤ n) :
    (List.replicate n c ++ rest).drop k = List.replicate (n - k) c ++ rest := by
  induction k generalizing n with
  | zero => simp
  | succ k2 ih =>
    cases n with
    | zero => simp at h
    | succ n2 =>
      simp only [List.replicate_succ, List.cons_append, List.drop_succ_cons]
      rw [ih n2 (Nat.le_of_succ_le_succ h)]
      simp [Nat.succ_sub_succ]

theorem pre_replicate_spaces (m t : List Char) (n : Nat)
    (h : m ++ t = List.replicate n ' ') :
    (∀ c ∈ m, c = ' ') ∧ m.length ≤ n := by
  constructor
  · intro c hc
    have : c ∈ List.replicate n ' ' := h ▸ List.mem_append.mpr (Or.inl hc)
    exact List.eq_of_mem_replicate this
  · have := congrArg List.length h
    simp only [List.length_append, List.length_replicate] at this
    omega

theorem containsSub_of_parts (p m q : List Char) :
    containsSub m (p ++ m ++ q) = true := by
  induction p with
  | nil =>
    simp only [List.nil_append]
    cases hm : m ++ q with
    | nil =>
      have : m = [] := by
        cases m with
        | nil => rfl
        | cons x xs => simp at hm
      simp [containsSub, this]
    | cons c rest =>
      rw [containsSub, ← hm, startsWith_append_self]
      simp
  | cons c p2 ih =>
    simp only [List.cons_append, containsSub, List.append_eq]
    rw [List.append_assoc] at ih
    simp only [List.append_assoc]
    simp [ih]

theorem pyWs_of_indent (c : Char) (h : isIndentChar c = true) : pyWs c = true := by
  simp only [isIndentChar, Bool.or_eq_true, beq_iff_eq] at h
  rcases h with rfl | rfl <;> rfl

/-- The message composed from a stripped, non-empty message is not a
space/tab-only string: its first character survives escaping as a
non-indent character (directly, or as part of an `&...;` entity or a
`<br>`). -/
theorem safe_message_not_all_indent (msg : List Char)
    (h1 : stripList msg = msg) (h2 : msg ≠ []) :
    (safe_message msg).all isIndentChar = false := by
  cases hall : (safe_message msg).all isIndentChar with
  | false => rfl
  | true =>
    exfalso
    have e1 : (htmlEscape msg).all isIndentChar = true :=
      replaceChar_all_indent '\n' "<br>".toList _ '<' (by decide) (by decide) hall
    simp only [htmlEscape] at e1
    have e2 := replaceChar_all_indent aposChar "&#x27;".toList _ '&'
      (by decide) (by decide) e1
    have e3 := replaceChar_all_indent quoteChar "&quot;".toList _ '&'
      (by decide) (by decide) e2
    have e4 := replaceChar_all_indent '>' "&gt;".toList _ '&'
      (by decide) (by decide) e3
    have e5 := replaceChar_all_indent '<' "&lt;".toList _ '&'
      (by decide) (by decide) e4
    have e6 := replaceChar_all_indent '&' "&amp;".toList _ '&'
      (by decide) (by decide) e5
    cases msg with
    | nil => exact h2 rfl
    | cons c rest =>
      have hws : pyWs c = false := stripList_head (c :: rest) c rest h1
      have hc : isIndentChar c = true := by
        have := List.all_eq_true.mp e6 c (List.mem_cons_self c rest)
        exact this
      rw [pyWs_of_indent c hc] at hws
      exact absurd hws (by simp)

theorem nl_not_mem_safe_message (msg : List Char) : '\n' ∉ safe_message msg :=
  replaceChar_not_mem_self '\n' "<br>".toList (htmlEscape msg) (by decide)

/-- Core dedent lemma: if the lines of `t` start with a non-blank line
whose leading whitespace is exactly eight spaces, and among them is a
line of eighteen spaces followed by `s` that is not whitespace-only, then
`s` survives `textwrap.dedent` as a contiguous substring. -/
theorem pyDedent_contains (t : List Char) (c0 : Char) (l0 : List Char)
    (pre post : List (List Char)) (s : List Char)
    (hsplit : splitNl t = (c0 :: l0) :: (pre ++ (List.replicate 18 ' ' ++ s) :: post))
    (hl0a : wsOnly (c0 :: l0) = false)
    (hl0c : leadWS (c0 :: l0) = List.replicate 8 ' ')
    (hblank : wsOnly (List.replicate 18 ' ' ++ s) = false) :
    ∃ p q, pyDedent t = p ++ s ++ q := by
  set L := List.replicate 18 ' ' ++ s with hL
  set f : List Char → List Char := fun l => if wsOnly l then [] else l with hf
  have hfl0 : f (c0 :: l0) = c0 :: l0 := by simp [hf, hl0a]
  have hfL : f L = L := by simp [hf, hblank]
  have hlines : (splitNl t).map f = (c0 :: l0) :: (pre.map f ++ L :: post.map f) := by
    rw [hsplit]
    simp only [List.map_cons, List.map_append, hfl0, hfL]
  set m := marginOf ((splitNl t).map f) with hm
  have hmpre : ∃ tt, m ++ tt = List.replicate 8 ' ' := by
    rw [hm, hlines]
    simp only [marginOf, List.filter_cons]
    have : (!(c0 :: l0).isEmpty) = true := by simp
    rw [if_pos this]
    simp only [List.map_cons, hl0c]
    exact foldl_commonPre_pre _ _
  obtain ⟨tt, htt⟩ := hmpre
  obtain ⟨hsp, hlen⟩ := pre_replicate_spaces m tt 8 htt
  have hsw : startsWith L m = true := by
    rw [hL]
    exact startsWith_spaces m 18 s hsp (Nat.le_trans hlen (by omega))
  have hdrop : L.drop m.length = List.replicate (18 - m.length) ' ' ++ s := by
    rw [hL]
    exact drop_replicate_append m.length 18 ' ' s (Nat.le_trans hlen (by omega))
  set g : List Char → List Char :=
    fun l => if startsWith l m then l.drop m.length else l with hg
  have hgL : g L = List.replicate (18 - m.length) ' ' ++ s := by
    simp only [hg]
    rw [if_pos hsw, hdrop]
  have hmemL : L ∈ (splitNl t).map f := by
    rw [hlines]
    exact List.mem_cons_of_mem _ (List.mem_append_right _ (List.mem_cons_self L _))
  have hmemgL : g L ∈ ((splitNl t).map f).map g := List.mem_map_of_mem g hmemL
  obtain ⟨p, q, hpq⟩ := joinNl_mem _ _ hmemgL
  refine ⟨p ++ List.replicate (18 - m.length) ' ', q, ?_⟩
  have hded : pyDedent t = joinNl (((splitNl t).map f).map g) := by
    simp only [pyDedent]
  rw [hded, hpq, hgL]
  simp [List.append_assoc]

/-- The `safe_message` line of the HTML template survives
`textwrap.dedent`: the dedent margin is at most the eight spaces of the
`<html>` line, while the message line is indented by eighteen. -/
theorem htmlBody_contains_safe (ts escN escE msg : List Char)
    (h1 : stripList msg = msg) (h2 : msg ≠ []) :
    ∃ p q,
      pyDedent (htmlRaw ts escN escE (safe_message msg)) =
        p ++ safe_message msg ++ q := by
  have hnlL : '\n' ∉ htmlIndent18 ++ safe_message msg := by
    intro hmem
    rcases List.mem_append.mp hmem with hx | hx
    · simp [htmlIndent18, List.eq_of_mem_replicate hx] at hx
    · exact nl_not_mem_safe_message msg hx
  have hshape :
      htmlRaw ts escN escE (safe_message msg) =
        htmlHead ++
          '\n' :: ((htmlMidA ++ ts ++ htmlMidB ++ escN ++ htmlMidC ++ escE ++
            htmlMidD ++ escE ++ htmlMidE) ++
              '\n' :: ((htmlIndent18 ++ safe_message msg) ++ '\n' :: htmlTail)) := by
    simp [htmlRaw, List.append_assoc]
  have hsplit1 :
      splitNl (htmlRaw ts escN escE (safe_message msg)) =
        htmlHead ::
          splitNl ((htmlMidA ++ ts ++ htmlMidB ++ escN ++ htmlMidC ++ escE ++
            htmlMidD ++ escE ++ htmlMidE) ++
              '\n' :: ((htmlIndent18 ++ safe_message msg) ++ '\n' :: htmlTail)) := by
    rw [hshape, splitNl_line htmlHead _ (by decide)]
  obtain ⟨pre, hne, hpre⟩ :=
    splitNl_shift
      (htmlMidA ++ ts ++ htmlMidB ++ escN ++ htmlMidC ++ escE ++
        htmlMidD ++ escE ++ htmlMidE)
      ((htmlIndent18 ++ safe_message msg) ++ '\n' :: htmlTail)
  have hsplit2 := splitNl_line (htmlIndent18 ++ safe_message msg) htmlTail hnlL
  have hhead : htmlHead = ' ' :: "       <html>".toList := by decide
  have hsplit :
      splitNl (htmlRaw ts escN escE (safe_message msg)) =
        (' ' :: "       <html>".toList) ::
          (pre ++ (List.replicate 18 ' ' ++ safe_message msg) ::
            splitNl htmlTail) := by
    rw [hsplit1, hpre, hsplit2, hhead]
    rw [show htmlIndent18 = List.replicate 18 ' ' from rfl]
  have hblank : wsOnly (List.replicate 18 ' ' ++ safe_message msg) = false := by
    simp only [wsOnly, List.all_append, safe_message_not_all_indent msg h1 h2,
      Bool.and_false]
  exact pyDedent_contains _ ' ' "       <html>".toList pre (splitNl htmlTail)
    (safe_message msg) hsplit (by decide) (by decide) hblank

/-- C3 (amended): for every validated submission (message stripped and
non-empty), the HTML body of the composed email contains the message
with `&`, `<`, `>` escaped as `&amp;`, `&lt;`, `&gt;`, double and single
quotes additionally escaped as `&quot;` and `&#x27;`, and newlines
replaced by `<br>`; the escaped message itself contains no raw `<` or
`>` character, so no raw HTML from the message reaches the HTML part. -/
theorem c3_html_escaped_message (ts fromA toA name email msg : List Char)
    (h1 : stripList msg = msg) (h2 : msg ≠ []) :
    containsSub (safe_message msg)
        (composeEmail ts fromA toA name email msg).htmlBody = true ∧
      '<' ∉ htmlEscape msg ∧ '>' ∉ htmlEscape msg := by
  refine ⟨?_, ?_, ?_⟩
  · obtain ⟨p, q, hpq⟩ :=
      htmlBody_contains_safe ts (htmlEscape name) (htmlEscape email) msg h1 h2
    have hcomp : (composeEmail ts fromA toA name email msg).htmlBody =
        pyDedent (htmlRaw ts (htmlEscape name) (htmlEscape email)
          (safe_message msg)) := by
      simp only [composeEmail]
    rw [hcomp, hpq]
    exact containsSub_of_parts p _ q
  · simp only [htmlEscape]
    apply replaceChar_not_mem _ aposChar _ _ (by decide)
    apply replaceChar_not_mem _ quoteChar _ _ (by decide)
    apply replaceChar_not_mem _ '>' _ _ (by decide)
    exact replaceChar_not_mem_self '<' _ _ (by decide)
  · simp only [htmlEscape]
    apply replaceChar_not_mem _ aposChar _ _ (by decide)
    apply replaceChar_not_mem _ quoteChar _ _ (by decide)
    exact replaceChar_not_mem_self '>' _ _ (by decide)

theorem startsWith_mem (s pat : List Char) (c : Char)
    (h : startsWith s pat = true) (hc : c ∈ pat) : c ∈ s := by
  induction pat generalizing s with
  | nil => simp at hc
  | cons p ps ih =>
    cases s with
    | nil => simp [startsWith] at h
    | cons a as_ =>
      simp only [startsWith, Bool.and_eq_true, beq_iff_eq] at h
      rcases List.mem_cons.mp hc with rfl | hmem
      · rw [h.1]
        exact List.mem_cons_self _ _
      · exact List.mem_cons_of_mem a (ih as_ h.2 hmem)

theorem mem_of_containsSub (pat s : List Char) (c : Char)
    (h : containsSub pat s = true) (hc : c ∈ pat) : c ∈ s := by
  induction s with
  | nil =>
    have : pat = [] := by
      cases pat with
      | nil => rfl
      | cons x xs => simp [containsSub] at h
    subst this
    simp at hc
  | cons a rest ih =>
    simp only [containsSub, Bool.or_eq_true] at h
    rcases h with h1 | h2
    · exact startsWith_mem _ _ _ h1 hc
    · exact List.mem_cons_of_mem a (ih h2)

theorem mem_splitNl (t l : List Char) (c : Char)
    (hl : l ∈ splitNl t) (hc : c ∈ l) : c ∈ t := by
  induction t generalizing l with
  | nil =>
    simp only [splitNl, List.mem_singleton] at hl
    subst hl
    simp at hc
  | cons a rest ih =>
    simp only [splitNl] at hl
    cases hs : splitNl rest with
    | nil => exact absurd hs (splitNl_ne_nil rest)
    | cons l0 ls =>
      rw [hs] at hl
      dsimp only at hl
      by_cases ha : a == '\n'
      · rw [if_pos ha] at hl
        rcases List.mem_cons.mp hl with rfl | hmem
        · simp at hc
        · exact List.mem_cons_of_mem a (ih l (hs ▸ hmem) hc)
      · rw [if_neg ha] at hl
        rcases List.mem_cons.mp hl with rfl | hmem
        · rcases List.mem_cons.mp hc with rfl | hc2
          · exact List.mem_cons_self _ _
          · exact List.mem_cons_of_mem a
              (ih l0 (hs ▸ List.mem_cons_self l0 ls) hc2)
        · exact List.mem_cons_of_mem a
            (ih l (hs ▸ List.mem_cons_of_mem l0 hmem) hc)

theorem mem_joinNl_sub (ls : List (List Char)) (c : Char)
    (h : c ∈ joinNl ls) : c = '\n' ∨ ∃ l ∈ ls, c ∈ l := by
  induction ls with
  | nil => simp [joinNl] at h
  | cons a ls ih =>
    cases ls with
    | nil =>
      right
      exact ⟨a, List.mem_cons_self _ _, h⟩
    | cons b ls2 =>
      have hj : joinNl (a :: b :: ls2) = a ++ '\n' :: joinNl (b :: ls2) := rfl
      rw [hj] at h
      rcases List.mem_append.mp h with h1 | h2
      · right
        exact ⟨a, List.mem_cons_self _ _, h1⟩
      · rcases List.mem_cons.mp h2 with rfl | h3
        · left
          rfl
        · rcases ih h3 with h4 | ⟨l, hl, hcl⟩
          · left
            exact h4
          · right
            exact ⟨l, List.mem_cons_of_mem a hl, hcl⟩

/-- `textwrap.dedent` introduces no characters other than the newlines
between lines: anything in its output other than `\n` was in its
input. -/
theorem pyDedent_not_mem (t : List Char) (c : Char)
    (hc : c ≠ '\n') (h : c ∉ t) : c ∉ pyDedent t := by
  intro hmem
  simp only [pyDedent] at hmem
  rcases mem_joinNl_sub _ _ hmem with rfl | ⟨l, hl, hcl⟩
  · exact hc rfl
  · obtain ⟨l1, hl1, hgl⟩ := List.mem_map.mp hl
    obtain ⟨l2, hl2, hfl⟩ := List.mem_map.mp hl1
    have hcl1 : c ∈ l1 := by
      rw [← hgl] at hcl
      by_cases hsw2 : startsWith l1 (marginOf ((splitNl t).map fun l =>
          if wsOnly l then [] else l)) = true
      · rw [if_pos hsw2] at hcl
        exact List.mem_of_mem_drop hcl
      · rw [if_neg hsw2] at hcl
        exact hcl
    have hcl2 : c ∈ l2 := by
      rw [← hfl] at hcl1
      by_cases hws2 : wsOnly l2 = true
      · rw [if_pos hws2] at hcl1
        simp at hcl1
      · rw [if_neg hws2] at hcl1
        exact hcl1
    exact h (mem_splitNl t l2 c hl2 hcl2)

/-- C3 counterexample: for the validated submission with message `*'*`
(name `Jo`, email `jo@example.com`), the HTML body does not contain the
message with only `<`, `>`, `&` escaped — that form retains the single
quote, but the HTML body contains no single quote at all, because
`html.escape` also escapes quotes (the message appears as
`*&#x27;*`). -/
theorem c3_only_escape_counterexample :
    containsSub (specOnlyEscape cxMsg)
      ((composeEmail cxTs cxFrom cxTo cxName cxEmail cxMsg).htmlBody) = false := by
  cases hcs : containsSub (specOnlyEscape cxMsg)
      ((composeEmail cxTs cxFrom cxTo cxName cxEmail cxMsg).htmlBody) with
  | false => rfl
  | true =>
    exfalso
    have hmem : aposChar ∈
        (composeEmail cxTs cxFrom cxTo cxName cxEmail cxMsg).htmlBody :=
      mem_of_containsSub _ _ _ hcs (by decide)
    have hbody : (composeEmail cxTs cxFrom cxTo cxName cxEmail cxMsg).htmlBody =
        pyDedent (htmlRaw cxTs (htmlEscape cxName) (htmlEscape cxEmail)
          (safe_message cxMsg)) := by
      simp only [composeEmail]
    rw [hbody] at hmem
    have e1 : aposChar ∉ htmlHead := by decide
    have e2 : aposChar ∉ htmlMidA := by decide
    have e3 : aposChar ∉ cxTs := by decide
    have e4 : aposChar ∉ htmlMidB := by decide
    have e5 : aposChar ∉ htmlEscape cxName := by decide
    have e6 : aposChar ∉ htmlMidC := by decide
    have e7 : aposChar ∉ htmlEscape cxEmail := by decide
    have e8 : aposChar ∉ htmlMidD := by decide
    have e9 : aposChar ∉ htmlMidE := by decide
    have e10 : aposChar ∉ htmlIndent18 := by decide
    have e11 : aposChar ∉ safe_message cxMsg := by decide
    have e12 : aposChar ∉ htmlTail := by decide
    have e13 : aposChar ≠ '\n' := by decide
    have hnotraw : aposChar ∉ htmlRaw cxTs (htmlEscape cxName)
        (htmlEscape cxEmail) (safe_message cxMsg) := by
      simp [htmlRaw, List.mem_append, List.mem_cons, e1, e2, e3, e4, e5, e6,
        e7, e8, e9, e10, e11, e12, e13]
    exact pyDedent_not_mem _ _ e13 hnotraw hmem

/-- C3 witness: the amended escaping statement instantiated at the
submission with message `*'*`. -/
theorem c3_html_escaped_message_witness :
    containsSub (safe_message cxMsg)
        (composeEmail cxTs cxFrom cxTo cxName cxEmail cxMsg).htmlBody = true ∧
      '<' ∉ htmlEscape cxMsg ∧ '>' ∉ htmlEscape cxMsg :=
  c3_html_escaped_message cxTs cxFrom cxTo cxName cxEmail cxMsg
    (by decide) (by decide)

/-- C5: for every request whose declared `Content-Length` parses to a
value exceeding `MAX_CONTENT_LENGTH` (10240), the response is 413
`"Payload too large"`, no email is composed or sent, no captcha call is
made, and processing stops at the size check (the body is not read or
parsed). -/
theorem c5_payload_too_large (env : Env) (r : Request) (n : Int)
    (hpath : r.path = ALLOWED_ENDPOINT)
    (horig : is_origin_allowed r.origin = true)
    (hn : contentLengthVal r = some n)
    (hbig : n > MAX_CONTENT_LENGTH) :
    do_POST env r =
      ⟨413, "Payload too large", [], [], 0, [.origin, .size]⟩ := by
  simp [do_POST, hpath, horig, hn, hbig]

/-- C5 witness: a 20000-byte declared length is rejected with 413. -/
theorem c5_payload_too_large_witness :
    do_POST envOk reqBig =
      ⟨413, "Payload too large", [], [], 0, [.origin, .size]⟩ :=
  c5_payload_too_large envOk reqBig 20000 rfl (by decide) (by decide)
    (by decide)

/-- C9: for every request from an allowed origin whose `Content-Length`
header is present but not parseable by `int()`, the handler answers 500
`"Internal server error"` (neither 400 nor 413), and neither parses the
body, calls the captcha service, nor composes or sends an email. -/
theorem c9_bad_content_length (env : Env) (r : Request) (v : String)
    (hpath : r.path = ALLOWED_ENDPOINT)
    (horig : is_origin_allowed r.origin = true)
    (hcl : r.contentLength = some v)
    (hbad : pyInt v.toList = none) :
    do_POST env r =
      ⟨500, "Internal server error", [], [], 0, [.origin, .size]⟩ := by
  have hn : contentLengthVal r = none := by
    simp only [contentLengthVal, hcl]
    exact hbad
  simp [do_POST, hpath, horig, hn]

/-- C9 witness: `Content-Length: abc` yields 500. -/
theorem c9_bad_content_length_witness :
    do_POST envOk reqBadLen =
      ⟨500, "Internal server error", [], [], 0, [.origin, .size]⟩ :=
  c9_bad_content_length envOk reqBadLen "abc" rfl (by decide) rfl (by decide)

/-- C6: for every request whose parsed JSON object lacks a truthy
`g-recaptcha-response` value (key absent or falsy), the response is 400
`"Missing reCAPTCHA token"` and no captcha-service call is made. -/
theorem c6_missing_token (env : Env) (r : Request) (data : JVal) (n : Int)
    (tok : Option JVal)
    (hpath : r.path = ALLOWED_ENDPOINT)
    (horig : is_origin_allowed r.origin = true)
    (hn : contentLengthVal r = some n)
    (hle : ¬n > MAX_CONTENT_LENGTH)
    (hbody : r.bodyJson = some data)
    (htok : dictGet data "g-recaptcha-response" = .ok tok)
    (hfals : truthyOpt tok = false) :
    do_POST env r =
      ⟨400, "Missing reCAPTCHA token", [], [], 0,
        [.origin, .size, .parse, .token]⟩ := by
  simp [do_POST, hpath, horig, hn, hle, hbody, htok, hfals]

/-- C6 witness: a body without the token key is rejected with 400 and
zero captcha calls. -/
theorem c6_missing_token_witness :
    do_POST envOk reqNoTok =
      ⟨400, "Missing reCAPTCHA token", [], [], 0,
        [.origin, .size, .parse, .token]⟩ :=
  c6_missing_token envOk reqNoTok jsonNoTok 70 none rfl (by decide)
    (by decide) (by decide) rfl rfl rfl

/-- C8: for every request carrying a truthy captcha token while
`RECAPTCHA_SECRET` is missing or empty, `verify_captcha` raises, the
handler answers 500 `"Internal server error"` (not the 400 verification
failure), no captcha-service call is made, and no email is composed or
sent. -/
theorem c8_missing_secret (env : Env) (r : Request) (data : JVal) (n : Int)
    (tok : Option JVal)
    (hpath : r.path = ALLOWED_ENDPOINT)
    (horig : is_origin_allowed r.origin = true)
    (hn : contentLengthVal r = some n)
    (hle : ¬n > MAX_CONTENT_LENGTH)
    (hbody : r.bodyJson = some data)
    (htok : dictGet data "g-recaptcha-response" = .ok tok)
    (htr : truthyOpt tok = true)
    (hsec : env.recaptchaSecret = none ∨ env.recaptchaSecret = some "") :
    do_POST env r =
      ⟨500, "Internal server error", [], [], 0,
        [.origin, .size, .parse, .token, .captcha]⟩ := by
  have hver : verify_captcha env = (.raised, 0) := by
    rcases hsec with h | h <;>
      simp [verify_captcha, h, (by decide : "".isEmpty = true)]
  simp [do_POST, hpath, horig, hn, hle, hbody, htok, htr, hver]

/-- C8 witness: a valid request with no configured secret yields 500 and
zero captcha calls. -/
theorem c8_missing_secret_witness :
    do_POST envNoSecret reqOk =
      ⟨500, "Internal server error", [], [], 0,
        [.origin, .size, .parse, .token, .captcha]⟩ :=
  c8_missing_secret envNoSecret reqOk jsonOk 92 (some (.jstr "tok")) rfl
    (by decide) (by decide) (by decide) rfl rfl rfl (Or.inl rfl)

/-- C2: for every request carrying a truthy captcha token (with the
secret configured) whose captcha verification fails — the outbound call
raising a network error or timing out, the response body being
unparseable JSON, or the service answering without a truthy `success` —
the response is 400 `"reCAPTCHA verification failed"` (this variant maps
all of these to 400), no email is composed or sent, and exactly one
outbound verification call is made (no retry). -/
theorem c2_captcha_failure (env : Env) (r : Request) (data : JVal) (n : Int)
    (tok : Option JVal) (sec : String)
    (hpath : r.path = ALLOWED_ENDPOINT)
    (horig : is_origin_allowed r.origin = true)
    (hn : contentLengthVal r = some n)
    (hle : ¬n > MAX_CONTENT_LENGTH)
    (hbody : r.bodyJson = some data)
    (htok : dictGet data "g-recaptcha-response" = .ok tok)
    (htr : truthyOpt tok = true)
    (hsec : env.recaptchaSecret = some sec)
    (hsecne : sec.isEmpty = false)
    (hout : env.captchaHTTP = .netError ∨ env.captchaHTTP = .badJson ∨
      ∃ fs, env.captchaHTTP = .ok (.jobj fs) ∧
        truthyOpt (lookupStr fs "success") = false) :
    do_POST env r =
      ⟨400, "reCAPTCHA verification failed", [], [], 1,
        [.origin, .size, .parse, .token, .captcha]⟩ := by
  have hver : verify_captcha env = (.ret false, 1) := by
    rcases hout with h | h | ⟨fs, h, hfs⟩ <;>
      simp [verify_captcha, hsec, hsecne, h]
    simp [hfs]
  simp [do_POST, hpath, horig, hn, hle, hbody, htok, htr, hver]

/-- C2 witness: a network failure of the captcha call yields 400 with
exactly one outbound call and no email. -/
theorem c2_captcha_failure_witness :
    do_POST envNetFail reqOk =
      ⟨400, "reCAPTCHA verification failed", [], [], 1,
        [.origin, .size, .parse, .token, .captcha]⟩ :=
  c2_captcha_failure envNetFail reqOk jsonOk 92 (some (.jstr "tok")) "sec"
    rfl (by decide) (by decide) (by decide) rfl rfl rfl rfl (by decide)
    (Or.inl rfl)

/-- C7: for every request that passes captcha verification with all
three fields non-empty after stripping but whose email fails the
`EMAIL_REGEX` match, the response is 400 `"Invalid email format"` and no
email is composed or sent. -/
theorem c7_invalid_email (env : Env) (r : Request) (data : JVal) (n : Int)
    (tok : Option JVal) (k : Nat) (name email message : List Char)
    (hpath : r.path = ALLOWED_ENDPOINT)
    (horig : is_origin_allowed r.origin = true)
    (hn : contentLengthVal r = some n)
    (hle : ¬n > MAX_CONTENT_LENGTH)
    (hbody : r.bodyJson = some data)
    (htok : dictGet data "g-recaptcha-response" = .ok tok)
    (htr : truthyOpt tok = true)
    (hver : verify_captcha env = (.ret true, k))
    (hf : fields3 data = .ok (name, email, message))
    (hname : name.isEmpty = false) (hemail : email.isEmpty = false)
    (hmsg : message.isEmpty = false)
    (hem : emailMatch email = false) :
    do_POST env r =
      ⟨400, "Invalid email format", [], [], k,
        [.origin, .size, .parse, .token, .captcha, .fields, .email]⟩ := by
  simp [do_POST, hpath, horig, hn, hle, hbody, htok, htr, hver, hf, hname,
    hemail, hmsg, hem]

/-- C7 witness: `jo@example` (no dot in the domain) is rejected with
400. -/
theorem c7_invalid_email_witness :
    do_POST envOk reqBadEmail =
      ⟨400, "Invalid email format", [], [], 1,
        [.origin, .size, .parse, .token, .captcha, .fields, .email]⟩ :=
  c7_invalid_email envOk reqBadEmail jsonBadEmail 88 (some (.jstr "tok")) 1
    "Jo".toList "jo@example".toList "Hi".toList rfl (by decide) (by decide)
    (by decide) rfl rfl rfl rfl rfl (by decide) (by decide) (by decide)
    (by decide)

/-- A `data.get` of `name`, `email` or `message` holding a non-string
makes the three `.strip()` lines raise (`fields3` errors). -/
theorem fields3_error_of_nonstr (fs : List (String × JVal))
    (h : nonStrVal (lookupStr fs "name") = true ∨
      nonStrVal (lookupStr fs "email") = true ∨
      nonStrVal (lookupStr fs "message") = true) :
    fields3 (.jobj fs) = .error () := by
  rcases h with h | h | h
  · simp only [fields3, getStrip, bind, Except.bind]
    cases hl : lookupStr fs "name" with
    | none => rw [hl] at h; simp [nonStrVal] at h
    | some v =>
      rw [hl] at h
      cases v <;> simp_all [nonStrVal]
  · simp only [fields3, getStrip, bind, Except.bind]
    cases hl : lookupStr fs "name" with
    | none =>
      simp only
      cases hl2 : lookupStr fs "email" with
      | none => rw [hl2] at h; simp [nonStrVal] at h
      | some v =>
        rw [hl2] at h
        cases v <;> simp_all [nonStrVal]
    | some v =>
      cases v <;> simp only
      all_goals
        cases hl2 : lookupStr fs "email" with
        | none => rw [hl2] at h; simp [nonStrVal] at h
        | some w =>
          rw [hl2] at h
          cases w <;> simp_all [nonStrVal]
  · simp only [fields3, getStrip, bind, Except.bind]
    cases hl : lookupStr fs "name" with
    | none =>
      simp only
      cases hl2 : lookupStr fs "email" with
      | none =>
        simp only
        cases hl3 : lookupStr fs "message" with
        | none => rw [hl3] at h; simp [nonStrVal] at h
        | some v =>
          rw [hl3] at h
          cases v <;> simp_all [nonStrVal]
      | some v =>
        cases v <;> simp only
        all_goals
          cases hl3 : lookupStr fs "message" with
          | none => rw [hl3] at h; simp [nonStrVal] at h
          | some w =>
            rw [hl3] at h
            cases w <;> simp_all [nonStrVal]
    | some v =>
      cases v <;> simp only
      all_goals
        cases hl2 : lookupStr fs "email" with
        | none =>
          simp only
          cases hl3 : lookupStr fs "message" with
          | none => rw [hl3] at h; simp [nonStrVal] at h
          | some w =>
            rw [hl3] at h
            cases w <;> simp_all [nonStrVal]
        | some w =>
          cases w <;> simp only
          all_goals
            cases hl3 : lookupStr fs "message" with
            | none => rw [hl3] at h; simp [nonStrVal] at h
            | some u =>
              rw [hl3] at h
              cases u <;> simp_all [nonStrVal]

/-- C10: for every request that passes captcha verification but whose
JSON object binds `name`, `email` or `message` to a non-string value,
the `.strip()` call raises, the handler answers 500
`"Internal server error"` (not a 400 client error), and no email is
composed or sent. -/
theorem c10_nonstring_field (env : Env) (r : Request)
    (fs : List (String × JVal)) (n : Int) (tok : Option JVal) (k : Nat)
    (hpath : r.path = ALLOWED_ENDPOINT)
    (horig : is_origin_allowed r.origin = true)
    (hn : contentLengthVal r = some n)
    (hle : ¬n > MAX_CONTENT_LENGTH)
    (hbody : r.bodyJson = some (.jobj fs))
    (htok : dictGet (.jobj fs) "g-recaptcha-response" = .ok tok)
    (htr : truthyOpt tok = true)
    (hver : verify_captcha env = (.ret true, k))
    (hns : nonStrVal (lookupStr fs "name") = true ∨
      nonStrVal (lookupStr fs "email") = true ∨
      nonStrVal (lookupStr fs "message") = true) :
    do_POST env r =
      ⟨500, "Internal server error", [], [], k,
        [.origin, .size, .parse, .token, .captcha, .fields]⟩ := by
  have hf : fields3 (.jobj fs) = .error () := fields3_error_of_nonstr fs hns
  simp [do_POST, hpath, horig, hn, hle, hbody, htok, htr, hver, hf]

/-- C10 witness: `"name": 5` yields 500, not 400, and no email. -/
theorem c10_nonstring_field_witness :
    do_POST envOk reqNumName =
      ⟨500, "Internal server error", [], [], 1,
        [.origin, .size, .parse, .token, .captcha, .fields]⟩ :=
  c10_nonstring_field envOk reqNumName
    [("name", .jnum 5), ("email", .jstr "jo@example.com"),
      ("message", .jstr "Hi"), ("g-recaptcha-response", .jstr "tok")]
    80 (some (.jstr "tok")) 1 rfl (by decide) (by decide) (by decide) rfl
    rfl rfl rfl (Or.inl rfl)

/-- C1: for every POST to `/api/contact` from an allowed origin whose
declared length is within the cap, whose body parses to an object with a
truthy captcha token, whose captcha verification succeeds, whose three
fields are non-empty strings after stripping with the email matching
`EMAIL_REGEX`, and whose mail configuration and transport are healthy,
exactly one email is composed and handed to the transport, the response
is 200 `"Message sent successfully!"`, and the composed email's subject
is `"New Portfolio Message: "` followed by the submitted name. -/
theorem c1_valid_request_sends_email (env : Env) (r : Request) (data : JVal)
    (n : Int) (tok : Option JVal) (k : Nat) (name email message : List Char)
    (hpath : r.path = ALLOWED_ENDPOINT)
    (horig : is_origin_allowed r.origin = true)
    (hn : contentLengthVal r = some n)
    (hle : ¬n > MAX_CONTENT_LENGTH)
    (hbody : r.bodyJson = some data)
    (htok : dictGet data "g-recaptcha-response" = .ok tok)
    (htr : truthyOpt tok = true)
    (hver : verify_captcha env = (.ret true, k))
    (hf : fields3 data = .ok (name, email, message))
    (hname : name.isEmpty = false) (hemail : email.isEmpty = false)
    (hmsg : message.isEmpty = false)
    (hem : emailMatch email = true)
    (hfrom : falsyEnv env.emailFrom = false)
    (hto : falsyEnv env.emailTo = false)
    (hpw : falsyEnv env.emailPassword = false)
    (hsmtp : env.smtpOk = true) :
    ∃ m, do_POST env r =
        ⟨200, "Message sent successfully!", [m], [m], k, checkOrder⟩ ∧
      m.subject = "New Portfolio Message: ".toList ++ name := by
  refine ⟨composeEmail env.timestamp (env.emailFrom.getD "").toList
    (env.emailTo.getD "").toList name email message, ?_, ?_⟩
  · have hsend : send_email env name email message =
        .sent (composeEmail env.timestamp (env.emailFrom.getD "").toList
          (env.emailTo.getD "").toList name email message) := by
      simp [send_email, hfrom, hto, hpw, hsmtp]
    simp [do_POST, hpath, horig, hn, hle, hbody, htok, htr, hver, hf, hname,
      hemail, hmsg, hem, hsend, checkOrder]
  · simp [composeEmail]

/-- C1 witness: the spec's worked example — name `Jo`, email
`jo@example.com`, message `Hi`, token `tok`, captcha service answering
`{"success": true}` — yields 200 with one email whose subject is
`New Portfolio Message: Jo`. -/
theorem c1_valid_request_sends_email_witness :
    ∃ m, do_POST envOk reqOk =
        ⟨200, "Message sent successfully!", [m], [m], 1, checkOrder⟩ ∧
      m.subject = "New Portfolio Message: ".toList ++ "Jo".toList :=
  c1_valid_request_sends_email envOk reqOk jsonOk 92 (some (.jstr "tok")) 1
    "Jo".toList "jo@example.com".toList "Hi".toList rfl (by decide)
    (by decide) (by decide) rfl rfl rfl rfl rfl (by decide) (by decide)
    (by decide) (by decide) rfl rfl rfl rfl

/-- C4: for every request reaching the validator (correct path), the
checks run in exactly the documented order — origin, size, JSON parse,
token presence, captcha verification, field presence, email pattern —
the performed checks being precisely the passing prefix plus the first
failing check; and when some check fails, the request is rejected
(status is not 200) with no email composed or sent. -/
theorem c4_check_order (env : Env) (r : Request)
    (hpath : r.path = ALLOWED_ENDPOINT) :
    (do_POST env r).steps = specSteps env r ∧
      (checkOrder.all (passesCheck env r) = false →
        (do_POST env r).sent = [] ∧ (do_POST env r).composed = [] ∧
          (do_POST env r).status ≠ 200) := by
  cases horig : is_origin_allowed r.origin with
  | false =>
    exact ⟨by simp [do_POST, hpath, horig, specSteps, firstFailTrace,
        checkOrder, passesCheck],
      fun _ => by simp [do_POST, hpath, horig]⟩
  | true =>
    cases hcl : contentLengthVal r with
    | none =>
      exact ⟨by simp [do_POST, hpath, horig, hcl, specSteps, firstFailTrace,
          checkOrder, passesCheck],
        fun _ => by simp [do_POST, hpath, horig, hcl]⟩
    | some n =>
      by_cases hn : n > MAX_CONTENT_LENGTH
      · have hn2 : ¬n ≤ MAX_CONTENT_LENGTH := by omega
        exact ⟨by simp [do_POST, hpath, horig, hcl, hn, hn2, specSteps,
            firstFailTrace, checkOrder, passesCheck],
          fun _ => by simp [do_POST, hpath, horig, hcl, hn]⟩
      · have hn2 : n ≤ MAX_CONTENT_LENGTH := by omega
        cases hbody : r.bodyJson with
        | none =>
          exact ⟨by simp [do_POST, hpath, horig, hcl, hn, hn2, hbody,
              specSteps, firstFailTrace, checkOrder, passesCheck],
            fun _ => by simp [do_POST, hpath, horig, hcl, hn, hbody]⟩
        | some data =>
          cases htok : dictGet data "g-recaptcha-response" with
          | error u =>
            exact ⟨by simp [do_POST, hpath, horig, hcl, hn, hn2, hbody, htok,
                specSteps, firstFailTrace, checkOrder, passesCheck],
              fun _ => by simp [do_POST, hpath, horig, hcl, hn, hbody, htok]⟩
          | ok tok =>
            cases htr : truthyOpt tok with
            | false =>
              exact ⟨by simp [do_POST, hpath, horig, hcl, hn, hn2, hbody,
                  htok, htr, specSteps, firstFailTrace, checkOrder,
                  passesCheck],
                fun _ => by simp [do_POST, hpath, horig, hcl, hn, hbody,
                  htok, htr]⟩
            | true =>
              cases hver : verify_captcha env with
              | mk vout k =>
                cases vout with
                | raised =>
                  exact ⟨by simp [do_POST, hpath, horig, hcl, hn, hn2, hbody,
                      htok, htr, hver, specSteps, firstFailTrace, checkOrder,
                      passesCheck],
                    fun _ => by simp [do_POST, hpath, horig, hcl, hn, hbody,
                      htok, htr, hver]⟩
                | ret b =>
                  cases b with
                  | false =>
                    exact ⟨by simp [do_POST, hpath, horig, hcl, hn, hn2,
                        hbody, htok, htr, hver, specSteps, firstFailTrace,
                        checkOrder, passesCheck],
                      fun _ => by simp [do_POST, hpath, horig, hcl, hn,
                        hbody, htok, htr, hver]⟩
                  | true =>
                    cases hf : fields3 data with
                    | error u =>
                      exact ⟨by simp [do_POST, hpath, horig, hcl, hn, hn2,
                          hbody, htok, htr, hver, hf, specSteps,
                          firstFailTrace, checkOrder, passesCheck],
                        fun _ => by simp [do_POST, hpath, horig, hcl, hn,
                          hbody, htok, htr, hver, hf]⟩
                    | ok triple =>
                      obtain ⟨name, email, message⟩ := triple
                      by_cases hemp : (name.isEmpty || email.isEmpty ||
                          message.isEmpty) = true
                      · have hemp2 : (name = [] ∨ email = []) ∨ message = [] := by
                          simpa [List.isEmpty_iff] using hemp
                        refine ⟨?_, fun _ => by simp [do_POST, hpath, horig,
                          hcl, hn, hbody, htok, htr, hver, hf, hemp]⟩
                        simp [do_POST, hpath, horig, hcl, hn, hn2, hbody,
                          htok, htr, hver, hf, hemp, specSteps,
                          firstFailTrace, checkOrder, passesCheck]
                        rcases hemp2 with (h | h) | h <;> simp [h]
                      · have hne : (¬name = [] ∧ ¬email = []) ∧
                            ¬message = [] := by
                          simp only [Bool.or_eq_true, List.isEmpty_iff,
                            not_or] at hemp
                          exact hemp
                        cases hem : emailMatch email with
                        | false =>
                          exact ⟨by simp [do_POST, hpath, horig, hcl, hn,
                              hn2, hbody, htok, htr, hver, hf, hemp, hem,
                              hne.1.1, hne.1.2, hne.2, specSteps,
                              firstFailTrace, checkOrder, passesCheck],
                            fun _ => by simp [do_POST, hpath, horig, hcl,
                              hn, hbody, htok, htr, hver, hf, hemp, hem]⟩
                        | true =>
                          refine ⟨?_, fun hall => ?_⟩
                          · cases hsend : send_email env name email message
                              with
                            | sent m =>
                              simp [do_POST, hpath, horig, hcl, hn, hn2,
                                hbody, htok, htr, hver, hf, hemp, hem,
                                hne.1.1, hne.1.2, hne.2, hsend, specSteps,
                                firstFailTrace, checkOrder, passesCheck]
                            | smtpFail m =>
                              simp [do_POST, hpath, horig, hcl, hn, hn2,
                                hbody, htok, htr, hver, hf, hemp, hem,
                                hne.1.1, hne.1.2, hne.2, hsend, specSteps,
                                firstFailTrace, checkOrder, passesCheck]
                            | configError =>
                              simp [do_POST, hpath, horig, hcl, hn, hn2,
                                hbody, htok, htr, hver, hf, hemp, hem,
                                hne.1.1, hne.1.2, hne.2, hsend, specSteps,
                                firstFailTrace, checkOrder, passesCheck]
                          · exfalso
                            have hallt : checkOrder.all (passesCheck env r) =
                                true := by
                              simp [checkOrder, passesCheck, horig, hcl,
                                hn2, hbody, htok, htr, hver, hf, hem,
                                hne.1.1, hne.1.2, hne.2]
                            rw [hallt] at hall
                            exact absurd hall (by simp)

/-- C4 witness: on the spec's fully valid example request all seven
checks run in order, and processing reaches the email handoff. -/
theorem c4_check_order_witness :
    (do_POST envOk reqOk).steps = specSteps envOk reqOk ∧
      (checkOrder.all (passesCheck envOk reqOk) = false →
        (do_POST envOk reqOk).sent = [] ∧
          (do_POST envOk reqOk).composed = [] ∧
          (do_POST envOk reqOk).status ≠ 200) :=
  c4_check_order envOk reqOk rfl

end ContactApi
